import Mathlib

set_option autoImplicit false
set_option maxRecDepth 4096
set_option linter.unusedVariables false

namespace StreamingApi

/-! Shallow embedding of the streaming LLM API from
`GA Solutions/GA1/Q28/src/app.py` (and, for the content synthesizer, also the
variant in `GA Solutions/GA1/Q28/streaming_llm_api.py`).  Python strings are
modelled as `List Char` (Python counts code points, as does `List Char`). -/

/-- The characters Python's `str.split()` and `str.strip()` treat as whitespace
(space, tab, newline, carriage return, vertical tab, form feed). -/
def isPyWs (c : Char) : Bool :=
  c = ' ' || c = '\t' || c = '\n' || c = '\r' || c = '\x0b' || c = '\x0c'

/-- Worker for `pySplit`: `acc` holds the current word reversed. -/
def splitAux : List Char → List Char → List (List Char)
  | [], acc => if acc = [] then [] else [acc.reverse]
  | c :: cs, acc =>
    if isPyWs c then
      if acc = [] then splitAux cs [] else acc.reverse :: splitAux cs []
    else
      splitAux cs (c :: acc)

/-- Python `text.split()` with no separator: split on runs of whitespace,
dropping empty strings. -/
def pySplit (s : List Char) : List (List Char) :=
  splitAux s []

/-- Python `s.strip()`: remove leading and trailing whitespace. -/
def pyStrip (s : List Char) : List Char :=
  ((s.dropWhile isPyWs).reverse.dropWhile isPyWs).reverse

/-- Python `" ".join(ws)`. -/
def joinSp : List (List Char) → List Char
  | [] => []
  | [w] => w
  | w :: ws => w ++ ' ' :: joinSp ws

/-- The loop of `chunk_text` (`src/app.py`, lines 42-52): `cur` is
`current_chunk`, `len` is `current_length`; the emitted chunks are returned in
order, the final non-empty `current_chunk` flushed at the end. -/
def chunkCore (N : Nat) : List (List Char) → List (List Char) → Nat → List (List Char)
  | [], cur, _ => if cur = [] then [] else [joinSp cur]
  | w :: ws, cur, len =>
    if len + w.length > N ∧ cur ≠ [] then
      joinSp cur :: chunkCore N ws [w] w.length
    else
      chunkCore N ws (cur ++ [w]) (len + w.length + 1)

/-- `chunk_text(text, chunk_size)` from `src/app.py`, lines 36-54. -/
def chunk_text (text : List Char) (chunk_size : Nat) : List (List Char) :=
  chunkCore chunk_size (pySplit text) [] 0

/-- Text before the interpolated prompt in `src/app.py`'s
`generate_streaming_content` f-string (lines 9-32). -/
def appPre : String :=
  "Based on your prompt '"

/-- Text after the interpolated prompt in `src/app.py`'s
`generate_streaming_content` f-string (lines 9-32). -/
def appSuf : String :=
  "', here's a comprehensive response:\n\nThe streaming API enables real-time content delivery, " ++
  "significantly improving user experience by providing immediate feedback. This implementation " ++
  "uses Server-Sent Events (SSE) to progressively stream JSON chunks to clients.\n\nKey Features:\n- " ++
  "Non-blocking streaming architecture\n- Error handling with graceful degradation\n- Support for " ++
  "multiple concurrent connections\n- Proper resource cleanup and connection management\n\nPerformance " ++
  "Characteristics:\n- First token latency: <2000ms\n- Throughput: >30 tokens/second\n- Connection " ++
  "pooling enabled\n- Automatic backpressure handling\n\nThe response is delivered in 6+ chunks " ++
  "for demonstration:\nThis ensures responsive user interfaces and better perceived performance.\nEach " ++
  "chunk is sent as soon as available, without waiting for completion.\nThe streaming paradigm " ++
  "revolutionizes how we deliver AI-generated content.\nReal-time feedback transforms user engagement " ++
  "and satisfaction metrics.\nImplementation details follow industry best practices and standards.\nThis " ++
  "comprehensive solution meets all specified requirements and exceeds expectations.\nProduction-ready " ++
  "streaming infrastructure for maximum reliability and scalability."

/-- `generate_streaming_content(prompt)` from `src/app.py`, lines 8-34: the
f-string template with the prompt interpolated. -/
def generate_streaming_content (prompt : List Char) : List Char :=
  appPre.data ++ prompt ++ appSuf.data

/-- Text before the interpolated prompt in `streaming_llm_api.py`'s
`generate_streaming_content` f-string (lines 17-49). -/
def fullPre : String :=
  "Based on your prompt '"

/-- Text after the interpolated prompt in `streaming_llm_api.py`'s
`generate_streaming_content` f-string (lines 17-49). -/
def fullSuf : String :=
  "', here's a comprehensive response:\n\nThe streaming API enables real-time content delivery, " ++
  "significantly improving user experience by providing immediate feedback. This implementation " ++
  "uses Server-Sent Events (SSE) to progressively stream JSON chunks to clients.\n\nKey Features:\n• " ++
  "Non-blocking streaming architecture: Leveraging asynchronous I/O to handle many connections.\n• " ++
  "Error handling with graceful degradation: Ensuring that any server-side issues are communicated.\n• " ++
  "Support for multiple concurrent connections: Scaling to meet demand efficiently.\n• Proper " ++
  "resource cleanup and connection management: Preventing memory leaks and socket exhaustion.\n\nPerformance " ++
  "Characteristics:\n- First token latency: <2000ms: Optimizing for the fastest possible response " ++
  "start.\n- Throughput: >30 tokens/second: Ensuring a smooth and steady flow of information.\n- " ++
  "Connection pooling enabled: Reusing connections to reduce handshake overhead.\n- Automatic " ++
  "backpressure handling: Managing data flow to match client consumption rates.\n\nThe response " ++
  "is delivered in 6+ chunks for demonstration:\nThis ensures responsive user interfaces and better " ++
  "perceived performance.\nEach chunk is sent as soon as available, without waiting for completion.\nThe " ++
  "streaming paradigm revolutionizes how we deliver AI-generated content.\nReal-time feedback " ++
  "transforms user engagement and satisfaction metrics.\nImplementation details follow industry " ++
  "best practices and standards.\nThis comprehensive solution meets all specified requirements " ++
  "and exceeds expectations.\nProduction-ready streaming infrastructure for maximum reliability " ++
  "and scalability.\nMoreover, by using Rust as the underlying technology for high-performance " ++
  "components, we achieve unprecedented speed and efficiency. The combination of memory safety " ++
  "and zero-cost abstractions allows for building systems that are both robust and blazing fast.\n\nFurthermore, " ++
  "streaming is not just about speed; it's about the interactive experience. When users see words " ++
  "appearing as they are being thought of by the AI, it creates a sense of collaboration and " ++
  "flow that batch processing simply cannot replicate. This is particularly vital in creative " ++
  "applications, coding assistants, and any tool where the user's focus is on the evolving output. " ++
  "By minimizing the time to first token, we bridge the gap between human thought and machine " ++
  "generation, fostering a more intuitive and natural interface. \n\nIn conclusion, this streaming " ++
  "endpoint is a testament to modern engineering principles, combining SSE protocol efficiency " ++
  "with robust backend processing to deliver a state-of-the-art content generation service. It " ++
  "is designed to be scalable, maintainable, and highly responsive to user needs."

/-- `generate_streaming_content(prompt)` from `streaming_llm_api.py`,
lines 17-49 (the richer template variant). -/
def generate_streaming_content_full (prompt : List Char) : List Char :=
  fullPre.data ++ prompt ++ fullSuf.data

/-- Sum of the lengths of a list of strings. -/
def sumLens (ws : List (List Char)) : Nat :=
  (ws.map List.length).sum

/-- A JSON value as Flask's `request.get_json()` would return it (Python
`str`, `int`/`float`, `bool`, `None`, `list`, `dict`). -/
inductive JVal where
  | jstr (s : List Char)
  | jnum (n : Int)
  | jbool (b : Bool)
  | jnull
  | jarr (xs : List JVal)
  | jobj (fields : List (List Char × JVal))

/-- Python truthiness of a JSON value (`if not data`, `if not stream`). -/
def truthy : JVal → Bool
  | .jstr s => !s.isEmpty
  | .jnum n => n != 0
  | .jbool b => b
  | .jnull => false
  | .jarr xs => !xs.isEmpty
  | .jobj fs => !fs.isEmpty

/-- Python `dict.get(k, dflt)` on a parsed JSON object. -/
def dictGet (fs : List (List Char × JVal)) (k : List Char) (dflt : JVal) : JVal :=
  match fs.find? (fun kv => kv.1 = k) with
  | some kv => kv.2
  | none => dflt

/-- The CPython name of a JSON value's type, as it appears in an
`AttributeError` message. -/
def pyTypeName : JVal → List Char
  | .jstr _ => "str".data
  | .jnum _ => "int".data
  | .jbool _ => "bool".data
  | .jnull => "NoneType".data
  | .jarr _ => "list".data
  | .jobj _ => "dict".data

/-- Message of the `AttributeError` raised by `data.get('prompt', '').strip()`
when the prompt field is not a string. -/
def stripErrMsg (v : JVal) : List Char :=
  "'".data ++ pyTypeName v ++ "' object has no attribute 'strip'".data

/-- The validation errors of spec section 4.1 (in `src/app.py` they are the
four early-return branches of `stream_endpoint`, lines 66-95). -/
inductive ValidationError where
  | MissingBody
  | EmptyPrompt
  | PromptTooLong
  | StreamingRequired
deriving DecidableEq

/-- Outcome of the validation part of `stream_endpoint` (lines 64-95):
a 400 validation error, an uncaught Python exception inside the `try` block
(carrying `str(e)`), or the validated (stripped) prompt. -/
inductive ValidateResult where
  | error (e : ValidationError)
  | raise (msg : List Char)
  | ok (prompt : List Char)
deriving DecidableEq

/-- The validation checks of `stream_endpoint` (`src/app.py`, lines 64-95), in
source order: `if not data` / `prompt = data.get('prompt', '').strip()` /
`if not prompt` / `if len(prompt) > 5000` / `if not stream`.  A non-dict truthy
body or a non-string prompt raises `AttributeError` (caught by the outer
handler, line 133). -/
def validate : Option JVal → ValidateResult
  | none => .error .MissingBody
  | some v =>
    if truthy v = false then .error .MissingBody
    else
      match v with
      | .jobj fs =>
        match dictGet fs ("prompt".data) (.jstr []) with
        | .jstr s =>
          let prompt := pyStrip s
          let stream := dictGet fs ("stream".data) (.jbool false)
          if prompt = [] then .error .EmptyPrompt
          else if prompt.length > 5000 then .error .PromptTooLong
          else if truthy stream = false then .error .StreamingRequired
          else .ok prompt
        | w => .raise (stripErrMsg w)
      | w => .raise ("'".data ++ pyTypeName w ++ "' object has no attribute 'get'".data)

/-- An HTTP response as `src/app.py` builds it: status code, content type, and
the SSE body as the list of its `data:` frames (a one-string body is one
frame). -/
structure HttpResponse where
  status : Nat
  contentType : List Char
  frames : List (List Char)
deriving DecidableEq

/-- The SSE content type `'text/event-stream'`. -/
def sseType : List Char := "text/event-stream".data

/-- One SSE frame `data: <payload>\n\n`. -/
def sseFrame (payload : List Char) : List Char :=
  "data: ".data ++ payload ++ "\n\n".data

/-- The literal message of each 400 branch in `src/app.py`, lines 66-95. -/
def errorMessage : ValidationError → List Char
  | .MissingBody => "No JSON body provided".data
  | .EmptyPrompt => "Prompt cannot be empty".data
  | .PromptTooLong => "Prompt exceeds maximum length".data
  | .StreamingRequired => "stream parameter must be true".data

/-- The single validation-error frame
`data: {"error": "<message>", "code": 400}\n\n` (the literal response strings
of lines 68, 78, 85, 92). -/
def error400Frame (e : ValidationError) : List Char :=
  sseFrame ("\x7b\"error\": \"".data ++ errorMessage e ++ "\", \"code\": 400\x7d".data)

/-- One hex digit as `json.dumps` prints it (lowercase). -/
def hexDigit (n : Nat) : Char :=
  if n < 10 then Char.ofNat (48 + n) else Char.ofNat (87 + n)

/-- A `\uXXXX` escape of `json.dumps`. -/
def uEscape (n : Nat) : List Char :=
  ['\\', 'u', hexDigit (n / 4096 % 16), hexDigit (n / 256 % 16),
    hexDigit (n / 16 % 16), hexDigit (n % 16)]

/-- How `json.dumps` (defaults: `ensure_ascii=True`) renders one character of
a JSON string. -/
def jsonEscapeChar (c : Char) : List Char :=
  if c = '\\' then ['\\', '\\']
  else if c = '"' then ['\\', '"']
  else if c = '\n' then ['\\', 'n']
  else if c = '\t' then ['\\', 't']
  else if c = '\r' then ['\\', 'r']
  else if c = '\x08' then ['\\', 'b']
  else if c = '\x0c' then ['\\', 'f']
  else if c.toNat < 32 ∨ 126 < c.toNat then
    if c.toNat < 65536 then uEscape c.toNat
    else uEscape (55296 + (c.toNat - 65536) / 1024) ++ uEscape (56320 + (c.toNat - 65536) % 1024)
  else [c]

/-- `json.dumps` escaping of a whole string. -/
def jsonEscape (s : List Char) : List Char :=
  (s.map jsonEscapeChar).flatten

/-- The frame `generate` yields per chunk (`src/app.py`, lines 104-111):
`data: <json.dumps({"choices": [{"delta": {"content": chunk + " "}}]})>\n\n`. -/
def deltaFrame (chunk : List Char) : List Char :=
  sseFrame ("\x7b\"choices\": [\x7b\"delta\": \x7b\"content\": \"".data ++
    jsonEscape (chunk ++ [' ']) ++ "\"\x7d\x7d]\x7d".data)

/-- The terminal sentinel frame `data: [DONE]\n\n` (line 114). -/
def doneFrame : List Char :=
  sseFrame ("[DONE]".data)

/-- The mid-stream error frame
`data: <json.dumps({"error": str(e), "code": 500})>\n\n` (lines 116-121). -/
def error500Frame (msg : List Char) : List Char :=
  sseFrame ("\x7b\"error\": \"".data ++ jsonEscape msg ++ "\", \"code\": 500\x7d".data)

/-- The `generate()` generator of `stream_endpoint` (lines 100-121).  `fault`
is the fault oracle of spec section 4.4: `fault i = some msg` means the `i`-th
emission step (its `time.sleep`, or producing the final sentinel) raises an
exception with message `msg`, which the generator's `except` turns into one
final 500 error frame. -/
def generate (fault : Nat → Option (List Char)) : List (List Char) → Nat → List (List Char)
  | [], i =>
    match fault i with
    | some msg => [error500Frame msg]
    | none => [doneFrame]
  | c :: cs, i =>
    if pyStrip c = [] then generate fault cs i
    else
      match fault i with
      | some msg => [deltaFrame c, error500Frame msg]
      | none => deltaFrame c :: generate fault cs (i + 1)

/-- The outer exception handler of `stream_endpoint` (lines 133-142): a single
`{"error": "Server error: <msg>", "code": 500}` frame with HTTP status 500. -/
def outer500 (msg : List Char) : HttpResponse :=
  ⟨500, sseType, [error500Frame ("Server error: ".data ++ msg)]⟩

/-- `stream_endpoint` (`src/app.py`, lines 61-142) over a parsed body
(`none` = no parseable JSON) and a fault oracle for the emission loop. -/
def stream_endpoint (body : Option JVal) (fault : Nat → Option (List Char)) : HttpResponse :=
  match validate body with
  | .error e => ⟨400, sseType, [error400Frame e]⟩
  | .raise msg => outer500 msg
  | .ok prompt =>
    ⟨200, sseType, generate fault (chunk_text (generate_streaming_content prompt) 150) 0⟩

/-- The reference greedy chunker of spec section 4.3, with `current_length`
read in the plainest way the spec's words allow: the character length of the
current chunk (the accumulated words joined with single spaces).  Words are
accumulated while `current_length + len(word)` stays within the cap; otherwise
the current chunk is closed and the word starts a new chunk; a trailing
partial chunk is flushed. -/
def specChunkAux (N : Nat) : List (List Char) → List (List Char) → List (List Char)
  | [], cur => if cur = [] then [] else [joinSp cur]
  | w :: ws, cur =>
    if (joinSp cur).length + w.length > N ∧ cur ≠ [] then
      joinSp cur :: specChunkAux N ws [w]
    else
      specChunkAux N ws (cur ++ [w])

/-- The spec's reference greedy chunking algorithm (section 4.3) applied to a
text: tokenize on whitespace, then accumulate greedily. -/
def specChunkText (text : List Char) (N : Nat) : List (List Char) :=
  specChunkAux N (pySplit text) []

/-- The reference greedy chunker with the bookkeeping `chunk_text` actually
implements: the running length counts the current chunk's text plus one
virtual trailing space while no chunk has been closed yet (`first = true`),
and exactly the current chunk's text afterwards. -/
def specChunkPadAux (N : Nat) : Bool → List (List Char) → List (List Char) → List (List Char)
  | _, [], cur => if cur = [] then [] else [joinSp cur]
  | first, w :: ws, cur =>
    if (joinSp cur).length + (if first then 1 else 0) + w.length > N ∧ cur ≠ [] then
      joinSp cur :: specChunkPadAux N false ws [w]
    else
      specChunkPadAux N first ws (cur ++ [w])

/-- The amended reference algorithm applied to a text. -/
def specChunkTextPad (text : List Char) (N : Nat) : List (List Char) :=
  specChunkPadAux N true (pySplit text) []

/-! ## Lemmas about `joinSp` -/

theorem joinSp_cons (w : List Char) (ws : List (List Char)) (h : ws ≠ []) :
    joinSp (w :: ws) = w ++ ' ' :: joinSp ws := by
  cases ws with
  | nil => exact absurd rfl h
  | cons w2 ws2 => rfl

theorem joinSp_append (a b : List (List Char)) (ha : a ≠ []) (hb : b ≠ []) :
    joinSp (a ++ b) = joinSp a ++ ' ' :: joinSp b := by
  induction a with
  | nil => exact absurd rfl ha
  | cons w ws ih =>
    cases ws with
    | nil =>
      simp only [List.singleton_append, List.nil_append]
      rw [joinSp_cons w b hb]
      rfl
    | cons w2 ws2 =>
      have hne : w2 :: ws2 ≠ [] := by simp
      rw [List.cons_append, joinSp_cons w ((w2 :: ws2) ++ b) (by simp),
        joinSp_cons w (w2 :: ws2) hne, ih hne]
      simp [List.append_assoc]

theorem joinSp_snoc_length (cur : List (List Char)) (w : List Char) (h : cur ≠ []) :
    (joinSp (cur ++ [w])).length = (joinSp cur).length + 1 + w.length := by
  rw [joinSp_append cur [w] h (by simp)]
  simp [joinSp]
  omega

/-! ## Lemmas about `chunkCore` -/

theorem chunkCore_ne_nil (N : Nat) (ws : List (List Char)) :
    ∀ (cur : List (List Char)) (len : Nat), cur ≠ [] → chunkCore N ws cur len ≠ [] := by
  induction ws with
  | nil => intro cur len h; simp [chunkCore, h]
  | cons w ws ih =>
    intro cur len h
    simp only [chunkCore]
    split
    · simp
    · exact ih (cur ++ [w]) (len + w.length + 1) (by simp)

theorem chunkCore_join (N : Nat) (ws : List (List Char)) :
    ∀ (cur : List (List Char)) (len : Nat), cur ≠ [] →
      joinSp (chunkCore N ws cur len) = joinSp (cur ++ ws) := by
  induction ws with
  | nil => intro cur len h; simp [chunkCore, h, joinSp]
  | cons w ws ih =>
    intro cur len h
    simp only [chunkCore]
    split
    · rename_i hcond
      have hrest : chunkCore N ws [w] w.length ≠ [] := chunkCore_ne_nil N ws [w] w.length (by simp)
      rw [joinSp_cons _ _ hrest, ih [w] w.length (by simp),
        joinSp_append cur (w :: ws) h (by simp)]
      rfl
    · rw [ih (cur ++ [w]) (len + w.length + 1) (by simp), List.append_assoc]
      rfl

theorem chunk_text_join (text : List Char) (N : Nat) :
    joinSp (chunk_text text N) = joinSp (pySplit text) := by
  unfold chunk_text
  cases h : pySplit text with
  | nil => simp [chunkCore]
  | cons w ws =>
    simp only [chunkCore, ne_eq, not_true_eq_false, and_false, if_false,
      List.nil_append, Nat.zero_add]
    exact chunkCore_join N ws [w] (w.length + 1) (by simp)

theorem chunk_text_nil (text : List Char) (N : Nat) (h : pySplit text = []) :
    chunk_text text N = [] := by
  unfold chunk_text
  rw [h]
  rfl

/-! ## Words produced by `pySplit` are non-empty and whitespace-free -/

/-- A word as produced by `pySplit`: non-empty and containing no whitespace. -/
def IsWord (w : List Char) : Prop :=
  w ≠ [] ∧ ∀ c ∈ w, isPyWs c = false

theorem splitAux_words (s : List Char) :
    ∀ acc, (∀ c ∈ acc, isPyWs c = false) → ∀ w ∈ splitAux s acc, IsWord w := by
  induction s with
  | nil =>
    intro acc hacc w hw
    simp only [splitAux] at hw
    split at hw
    · simp at hw
    · rename_i hne
      simp only [List.mem_singleton] at hw
      subst hw
      refine ⟨by simpa using hne, ?_⟩
      intro c hc
      exact hacc c (List.mem_reverse.mp hc)
  | cons c cs ih =>
    intro acc hacc w hw
    simp only [splitAux] at hw
    split at hw
    · rename_i hws
      split at hw
      · exact ih [] (by simp) w hw
      · rename_i hne
        rcases List.mem_cons.mp hw with h | h
        · subst h
          refine ⟨by simpa using hne, ?_⟩
          intro ch hch
          exact hacc ch (List.mem_reverse.mp hch)
        · exact ih [] (by simp) w h
    · rename_i hws
      refine ih (c :: acc) ?_ w hw
      intro ch hch
      rcases List.mem_cons.mp hch with h | h
      · subst h; simpa using hws
      · exact hacc ch h

theorem pySplit_words (s : List Char) : ∀ w ∈ pySplit s, IsWord w :=
  splitAux_words s [] (by simp)

theorem splitAux_ne_nil (s : List Char) :
    ∀ acc, acc ≠ [] → splitAux s acc ≠ [] := by
  induction s with
  | nil => intro acc h; simp [splitAux, h]
  | cons c cs ih =>
    intro acc h
    simp only [splitAux]
    split
    · simp [h]
    · exact ih (c :: acc) (by simp)

theorem pySplit_cons_ne_nil (c : Char) (s : List Char) (hc : isPyWs c = false) :
    pySplit (c :: s) ≠ [] := by
  unfold pySplit splitAux
  rw [hc]
  simp only [Bool.false_eq_true, if_false]
  exact splitAux_ne_nil s [c] (by simp)

/-! ## Chunks are space-joins of non-empty groups of words -/

theorem chunkCore_groups (N : Nat) (ws : List (List Char)) :
    ∀ (cur : List (List Char)) (len : Nat),
      (∀ w ∈ ws, IsWord w) → (∀ w ∈ cur, IsWord w) →
      ∀ ch ∈ chunkCore N ws cur len,
        ∃ g, g ≠ [] ∧ (∀ w ∈ g, IsWord w) ∧ ch = joinSp g := by
  induction ws with
  | nil =>
    intro cur len _ hcur ch hch
    simp only [chunkCore] at hch
    split at hch
    · simp at hch
    · rename_i hne
      simp only [List.mem_singleton] at hch
      exact ⟨cur, hne, hcur, hch⟩
  | cons w ws ih =>
    intro cur len hws hcur ch hch
    have hw : IsWord w := hws w (by simp)
    have hws' : ∀ v ∈ ws, IsWord v := fun v hv => hws v (by simp [hv])
    simp only [chunkCore] at hch
    split at hch
    · rename_i hcond
      rcases List.mem_cons.mp hch with h | h
      · exact ⟨cur, hcond.2, hcur, h⟩
      · exact ih [w] w.length hws' (by simpa using hw) ch h
    · refine ih (cur ++ [w]) (len + w.length + 1) hws' ?_ ch hch
      intro v hv
      rcases List.mem_append.mp hv with h | h
      · exact hcur v h
      · simp only [List.mem_singleton] at h; subst h; exact hw

theorem joinSp_group_head (g : List (List Char)) (hg : g ≠ []) (hw : ∀ w ∈ g, IsWord w) :
    ∃ c t, joinSp g = c :: t ∧ isPyWs c = false := by
  cases g with
  | nil => exact absurd rfl hg
  | cons w rest =>
    obtain ⟨hne, hchars⟩ := hw w (by simp)
    cases w with
    | nil => exact absurd rfl hne
    | cons c t =>
      cases rest with
      | nil => exact ⟨c, t, rfl, hchars c (by simp)⟩
      | cons w2 rest2 =>
        refine ⟨c, t ++ ' ' :: joinSp (w2 :: rest2), ?_, hchars c (by simp)⟩
        rw [joinSp_cons _ _ (by simp)]
        rfl

theorem joinSp_group_last (g : List (List Char)) (hg : g ≠ []) (hw : ∀ w ∈ g, IsWord w) :
    ∃ c t, (joinSp g).reverse = c :: t ∧ isPyWs c = false := by
  induction g with
  | nil => exact absurd rfl hg
  | cons w rest ih =>
    cases rest with
    | nil =>
      obtain ⟨hne, hchars⟩ := hw w (by simp)
      have hrev : w.reverse ≠ [] := by simpa using hne
      obtain ⟨c, t, hct⟩ := List.exists_cons_of_ne_nil hrev
      refine ⟨c, t, by simpa [joinSp] using hct, ?_⟩
      refine hchars c ?_
      rw [← List.mem_reverse, hct]
      simp
    | cons w2 rest2 =>
      have hne2 : w2 :: rest2 ≠ [] := by simp
      obtain ⟨c, t, hct, hc⟩ := ih hne2 (fun v hv => hw v (by simp [List.mem_cons.mp hv]))
      refine ⟨c, t ++ ' ' :: w.reverse, ?_, hc⟩
      rw [joinSp_cons _ _ hne2]
      simp [hct]

theorem pyStrip_eq_self (x : List Char)
    (h1 : ∃ c t, x = c :: t ∧ isPyWs c = false)
    (h2 : ∃ c t, x.reverse = c :: t ∧ isPyWs c = false) :
    pyStrip x = x := by
  obtain ⟨c1, t1, hx1, hc1⟩ := h1
  obtain ⟨c2, t2, hx2, hc2⟩ := h2
  unfold pyStrip
  have hd1 : x.dropWhile isPyWs = x := by
    rw [hx1, List.dropWhile_cons, hc1]
    simp
  rw [hd1]
  have hd2 : x.reverse.dropWhile isPyWs = x.reverse := by
    rw [hx2, List.dropWhile_cons, hc2]
    simp
  rw [hd2, List.reverse_reverse]

theorem chunk_text_props (text : List Char) (N : Nat) :
    ∀ c ∈ chunk_text text N, c ≠ [] ∧ pyStrip c = c := by
  intro ch hch
  have hwords := pySplit_words text
  have hgroups : ∃ g, g ≠ [] ∧ (∀ w ∈ g, IsWord w) ∧ ch = joinSp g := by
    unfold chunk_text at hch
    exact chunkCore_groups N (pySplit text) [] 0 hwords (by simp) ch hch
  obtain ⟨g, hg, hgw, hjoin⟩ := hgroups
  obtain ⟨c1, t1, h1, hc1⟩ := joinSp_group_head g hg hgw
  obtain ⟨c2, t2, h2, hc2⟩ := joinSp_group_last g hg hgw
  subst hjoin
  constructor
  · rw [h1]; simp
  · exact pyStrip_eq_self _ ⟨c1, t1, h1, hc1⟩ ⟨c2, t2, h2, hc2⟩

/-! ## The soft cap: chunks stay within `N + 1` unless a single word is longer -/

theorem chunkCore_bound (N : Nat) (ws : List (List Char)) :
    ∀ (cur : List (List Char)) (len : Nat),
      (∀ w ∈ ws, ∀ c ∈ w, isPyWs c = false) →
      (∀ w ∈ cur, ∀ c ∈ w, isPyWs c = false) →
      (joinSp cur).length ≤ len →
      (cur ≠ [] → cur.length = 1 ∨ (joinSp cur).length ≤ N + 1) →
      ∀ ch ∈ chunkCore N ws cur len,
        ch.length ≤ N + 1 ∨ ∀ c ∈ ch, isPyWs c = false := by
  induction ws with
  | nil =>
    intro cur len _ hcur _ hB ch hch
    simp only [chunkCore] at hch
    split at hch
    · simp at hch
    · rename_i hne
      simp only [List.mem_singleton] at hch
      subst hch
      rcases hB hne with h1 | h1
      · obtain ⟨w0, hw0⟩ := List.length_eq_one.mp h1
        subst hw0
        exact Or.inr (by simpa [joinSp] using hcur w0 (by simp))
      · exact Or.inl h1
  | cons w ws ih =>
    intro cur len hws hcur hL hB ch hch
    have hwchars : ∀ c ∈ w, isPyWs c = false := hws w (by simp)
    have hws' : ∀ v ∈ ws, ∀ c ∈ v, isPyWs c = false := fun v hv => hws v (by simp [hv])
    simp only [chunkCore] at hch
    split at hch
    · rename_i hcond
      rcases List.mem_cons.mp hch with h | h
      · subst h
        rcases hB hcond.2 with h1 | h1
        · obtain ⟨w0, hw0⟩ := List.length_eq_one.mp h1
          subst hw0
          exact Or.inr (by simpa [joinSp] using hcur w0 (by simp))
        · exact Or.inl h1
      · refine ih [w] w.length ?_ ?_ (by simp [joinSp]) (by simp) ch h
        · exact hws'
        · intro v hv; simp only [List.mem_singleton] at hv; subst hv; exact hwchars
    · rename_i hcond
      refine ih (cur ++ [w]) (len + w.length + 1) hws' ?_ ?_ ?_ ch hch
      · intro v hv
        rcases List.mem_append.mp hv with h | h
        · exact hcur v h
        · simp only [List.mem_singleton] at h; subst h; exact hwchars
      · cases hc : cur with
        | nil => simp [joinSp]; omega
        | cons c0 cs0 =>
          rw [← hc, joinSp_snoc_length cur w (by simp [hc])]
          have : (joinSp cur).length ≤ len := hL
          omega
      · intro _
        cases hc : cur with
        | nil => left; simp
        | cons c0 cs0 =>
          right
          rw [← hc, joinSp_snoc_length cur w (by simp [hc])]
          have hnc : ¬ (len + w.length > N ∧ cur ≠ []) := hcond
          have : ¬ (len + w.length > N) := by
            intro hgt
            exact hnc ⟨hgt, by simp [hc]⟩
          omega

/-! ## `chunk_text` against the spec's reference greedy algorithm -/

theorem chunkCore_eq_pad (N : Nat) (ws : List (List Char)) :
    ∀ (cur : List (List Char)) (len : Nat) (first : Bool), cur ≠ [] →
      len = (joinSp cur).length + (if first then 1 else 0) →
      chunkCore N ws cur len = specChunkPadAux N first ws cur := by
  induction ws with
  | nil => intro cur len first h _; simp [chunkCore, specChunkPadAux, h]
  | cons w ws ih =>
    intro cur len first h hlen
    subst hlen
    simp only [chunkCore, specChunkPadAux]
    by_cases hcond : (joinSp cur).length + (if first then 1 else 0) + w.length > N ∧ cur ≠ []
    · rw [if_pos hcond, if_pos hcond]
      congr 1
      exact ih [w] w.length false (by simp) (by simp [joinSp])
    · rw [if_neg hcond, if_neg hcond]
      refine ih (cur ++ [w]) _ first (by simp) ?_
      rw [joinSp_snoc_length cur w h]
      cases first
      all_goals simp
      all_goals omega

theorem chunk_text_eq_specPad (text : List Char) (N : Nat) :
    chunk_text text N = specChunkTextPad text N := by
  unfold chunk_text specChunkTextPad
  cases h : pySplit text with
  | nil => rfl
  | cons w ws =>
    simp only [chunkCore, specChunkPadAux]
    rw [if_neg (by simp), if_neg (by simp), List.nil_append]
    exact chunkCore_eq_pad N ws [w] (0 + w.length + 1) true (by simp) (by simp [joinSp])

/-! ## The emission loop -/

theorem generate_nofault (chunks : List (List Char)) :
    ∀ i, (∀ c ∈ chunks, pyStrip c ≠ []) →
      generate (fun _ => none) chunks i = chunks.map deltaFrame ++ [doneFrame] := by
  induction chunks with
  | nil => intro i _; rfl
  | cons c cs ih =>
    intro i h
    have hc : pyStrip c ≠ [] := h c (by simp)
    have hrest : ∀ x ∈ cs, pyStrip x ≠ [] := fun x hx => h x (by simp [hx])
    simp only [generate, if_neg hc]
    rw [ih (i + 1) hrest]
    rfl

theorem generate_shape (fault : Nat → Option (List Char)) (chunks : List (List Char)) :
    ∀ i, (∀ c ∈ chunks, pyStrip c ≠ []) →
      (∃ k msg, k ≤ chunks.length ∧
        generate fault chunks i = (chunks.take k).map deltaFrame ++ [error500Frame msg]) ∨
      generate fault chunks i = chunks.map deltaFrame ++ [doneFrame] := by
  induction chunks with
  | nil =>
    intro i _
    cases hf : fault i with
    | some msg => exact Or.inl ⟨0, msg, by simp, by simp [generate, hf]⟩
    | none => exact Or.inr (by simp [generate, hf])
  | cons c cs ih =>
    intro i h
    have hc : pyStrip c ≠ [] := h c (by simp)
    have hrest : ∀ x ∈ cs, pyStrip x ≠ [] := fun x hx => h x (by simp [hx])
    cases hf : fault i with
    | some msg =>
      refine Or.inl ⟨1, msg, by simp, ?_⟩
      simp [generate, hc, hf]
    | none =>
      rcases ih (i + 1) hrest with ⟨k, msg, hk, heq⟩ | heq
      · refine Or.inl ⟨k + 1, msg, by simpa using hk, ?_⟩
        simp [generate, hc, hf, heq]
      · exact Or.inr (by simp [generate, hc, hf, heq])

/-! ## Telling the frame kinds apart by their first nine characters -/

theorem deltaFrame_take (c : List Char) : (deltaFrame c).take 9 = "data: \x7b\"c".data := rfl

theorem doneFrame_take : doneFrame.take 9 = "data: [DO".data := rfl

theorem error400Frame_take (e : ValidationError) :
    (error400Frame e).take 9 = "data: \x7b\"e".data := rfl

theorem error500Frame_take (msg : List Char) :
    (error500Frame msg).take 9 = "data: \x7b\"e".data := rfl

theorem deltaFrame_ne_doneFrame (c : List Char) : deltaFrame c ≠ doneFrame := by
  intro h
  have h9 := congrArg (List.take 9) h
  rw [deltaFrame_take, doneFrame_take] at h9
  exact absurd h9 (by decide)

theorem deltaFrame_ne_error500Frame (c msg : List Char) : deltaFrame c ≠ error500Frame msg := by
  intro h
  have h9 := congrArg (List.take 9) h
  rw [deltaFrame_take, error500Frame_take] at h9
  exact absurd h9 (by decide)

theorem doneFrame_ne_error500Frame (msg : List Char) : doneFrame ≠ error500Frame msg := by
  intro h
  have h9 := congrArg (List.take 9) h
  rw [doneFrame_take, error500Frame_take] at h9
  exact absurd h9 (by decide)

theorem error400Frame_ne_deltaFrame (e : ValidationError) (c : List Char) :
    error400Frame e ≠ deltaFrame c := by
  intro h
  have h9 := congrArg (List.take 9) h
  rw [error400Frame_take, deltaFrame_take] at h9
  exact absurd h9 (by decide)

theorem error500Frame_ne_deltaFrame (msg c : List Char) :
    error500Frame msg ≠ deltaFrame c := by
  intro h
  have h9 := congrArg (List.take 9) h
  rw [error500Frame_take, deltaFrame_take] at h9
  exact absurd h9 (by decide)

/-! ## Remaining helpers for the endpoint claims -/

theorem flatten_map_space (chunks : List (List Char)) (h : chunks ≠ []) :
    (chunks.map (fun c => c ++ [' '])).flatten = joinSp chunks ++ [' '] := by
  induction chunks with
  | nil => exact absurd rfl h
  | cons c cs ih =>
    cases cs with
    | nil => simp [joinSp]
    | cons c2 cs2 =>
      rw [List.map_cons, List.flatten_cons, ih (by simp), joinSp_cons c (c2 :: cs2) (by simp)]
      simp [List.append_assoc]

theorem chunk_text_ne_nil (text : List Char) (N : Nat) (h : pySplit text ≠ []) :
    chunk_text text N ≠ [] := by
  unfold chunk_text
  obtain ⟨w, ws, hws⟩ := List.exists_cons_of_ne_nil h
  rw [hws]
  simp only [chunkCore]
  rw [if_neg (by simp)]
  exact chunkCore_ne_nil N ws ([] ++ [w]) (0 + w.length + 1) (by simp)

theorem content_split_ne_nil (p : List Char) :
    pySplit (generate_streaming_content p) ≠ [] := by
  have h : generate_streaming_content p =
      'B' :: (("ased on your prompt '".data ++ p) ++ appSuf.data) := rfl
  rw [h]
  exact pySplit_cons_ne_nil 'B' _ (by decide)

theorem stream_endpoint_of_error (body : Option JVal) (fault : Nat → Option (List Char))
    (e : ValidationError) (h : validate body = .error e) :
    stream_endpoint body fault = ⟨400, sseType, [error400Frame e]⟩ := by
  unfold stream_endpoint
  rw [h]

theorem stream_endpoint_of_ok (body : Option JVal) (fault : Nat → Option (List Char))
    (prompt : List Char) (h : validate body = .ok prompt) :
    stream_endpoint body fault =
      ⟨200, sseType, generate fault (chunk_text (generate_streaming_content prompt) 150) 0⟩ := by
  unfold stream_endpoint
  rw [h]

theorem stream_endpoint_of_raise (body : Option JVal) (fault : Nat → Option (List Char))
    (msg : List Char) (h : validate body = .raise msg) :
    stream_endpoint body fault = outer500 msg := by
  unfold stream_endpoint
  rw [h]

/-- The chunk sequence the endpoint streams for a validated prompt
(`src/app.py`, lines 97-98). -/
def responseChunks (prompt : List Char) : List (List Char) :=
  chunk_text (generate_streaming_content prompt) 150

/-! ## The claims -/

/-- Claim C1: the calibration invariant asks that for every prompt of length
in (0, 5000], `chunk_text(generate_streaming_content(prompt), 150)` yield at
least 6 chunks whose lengths sum to more than 1375.  Evaluating `src/app.py`'s
synthesizer at the one-character prompt "x" (length 1, inside the claimed
range) gives 9 chunks — so the chunk-count half holds there — but the chunk
lengths sum to 1214, not more than 1375: the sum half fails, although the
app's own index route advertises ">1375 characters output". -/
theorem calibration_eval_app :
    (chunk_text (generate_streaming_content ("x").data) 150).length = 9 ∧
    sumLens (chunk_text (generate_streaming_content ("x").data) 150) = 1214 ∧
    ¬ 1375 < sumLens (chunk_text (generate_streaming_content ("x").data) 150) := by
  have hs : sumLens (chunk_text (generate_streaming_content ("x").data) 150) = 1214 := by
    decide
  refine ⟨by decide, hs, ?_⟩
  rw [hs]
  decide

/-- Claim C2, counterexample: with `N = 2` and text `"ab a b"`, `chunk_text`
emits the chunk `"a b"`, of length 3 > N, which contains a space and is
therefore not a single word: the cap `N` of the claim is exceeded by a
multi-word chunk. -/
theorem chunk_cap_counterexample :
    ("a b").data ∈ chunk_text (("ab a b").data) 2 ∧
    2 < (("a b").data).length ∧ ' ' ∈ ("a b").data := by
  decide

/-- Claim C2, amended: every chunk of `chunk_text text N` has length at most
`N + 1` (not `N`), except when it is a single whitespace-free word longer than
`N + 1`.  The code's running counter counts a trailing space for every word of
the first chunk but not for the word that opens a later chunk, so later chunks
may reach `N + 1` characters. -/
theorem chunk_soft_cap (text : List Char) (N : Nat) (h : 1 ≤ N) :
    ∀ c ∈ chunk_text text N,
      c.length ≤ N + 1 ∨ ((∀ ch ∈ c, isPyWs ch = false) ∧ N + 1 < c.length) := by
  intro c hc
  have hb := chunkCore_bound N (pySplit text) [] 0
    (fun w hw ch hch => (pySplit_words text w hw).2 ch hch)
    (by simp) (by simp [joinSp]) (by simp) c hc
  rcases hb with h1 | h1
  · exact Or.inl h1
  · by_cases hlen : c.length ≤ N + 1
    · exact Or.inl hlen
    · exact Or.inr ⟨h1, by omega⟩

/-- Claim C2's amended theorem at the counterexample input: the chunk `"a b"`
of `chunk_text "ab a b" 2` stays within the soft cap `N + 1 = 3`. -/
theorem chunk_soft_cap_witness :
    (("a b").data).length ≤ 2 + 1 ∨
      ((∀ ch ∈ ("a b").data, isPyWs ch = false) ∧ 2 + 1 < (("a b").data).length) :=
  chunk_soft_cap (("ab a b").data) 2 (by decide) (("a b").data) (by decide)

/-- Claim C3: joining the chunks of `chunk_text text N` with single spaces
reproduces the whitespace-normalized text `" ".join(text.split())`, and a text
splitting to no words (empty or whitespace-only) yields the empty chunk
sequence. -/
theorem chunker_roundtrip (text : List Char) (N : Nat) (h : 1 ≤ N) :
    joinSp (chunk_text text N) = joinSp (pySplit text) ∧
    (pySplit text = [] → chunk_text text N = []) :=
  ⟨chunk_text_join text N, chunk_text_nil text N⟩

/-- Claim C3's theorem at a concrete input with doubled whitespace. -/
theorem chunker_roundtrip_witness :
    joinSp (chunk_text (("a  b").data) 3) = joinSp (pySplit (("a  b").data)) ∧
    (pySplit (("a  b").data) = [] → chunk_text (("a  b").data) 3 = []) :=
  chunker_roundtrip (("a  b").data) 3 (by decide)

/-- Claim C4, counterexample: on text `"a b"` with `N = 2` the code closes the
first chunk after `"a"` (its counter counts the word "a" plus a trailing
space, so 2 + 1 > 2), while the spec's greedy algorithm — with
`current_length` read as the current chunk's character length — accumulates
both words into one chunk `"a b"` (1 + 1 ≤ 2): the two algorithms differ. -/
theorem chunk_vs_spec_greedy_counterexample :
    chunk_text (("a b").data) 2 = [("a").data, ("b").data] ∧
    specChunkText (("a b").data) 2 = [("a b").data] ∧
    chunk_text (("a b").data) 2 ≠ specChunkText (("a b").data) 2 := by
  decide

/-- Claim C4, amended: `chunk_text` equals the spec's reference greedy
algorithm once `current_length` is read as the current chunk's character
length plus one virtual trailing space while no chunk has been closed yet
(and exactly the chunk's character length afterwards) — the bookkeeping the
code actually maintains. -/
theorem chunk_refines_padded_greedy (text : List Char) (N : Nat) :
    chunk_text text N = specChunkTextPad text N :=
  chunk_text_eq_specPad text N

/-- Claim C5, counterexample: the empty JSON object `{}` is a parseable body
whose prompt (defaulting to `""`) strips to empty, so the claimed mapping
gives `EmptyPrompt`; the code's `if not data:` treats the falsy `{}` as a
missing body and returns `MissingBody` instead. -/
theorem validate_empty_object_counterexample :
    validate (some (.jobj [])) = .error .MissingBody ∧
    validate (some (.jobj [])) ≠ .error .EmptyPrompt := by
  constructor
  · rfl
  · decide

/-- Claim C5, amended: over a JSON object body whose prompt field is a string
(or absent, defaulting to `""`) and whose stream field is a boolean (or
absent, defaulting to `false`), validation checks in order: a falsy body (the
empty object) is `MissingBody`; a prompt that strips to empty is
`EmptyPrompt`; a stripped prompt longer than 5000 is `PromptTooLong`; a false
stream flag is `StreamingRequired`; otherwise the stripped prompt passes.  A
missing body is `MissingBody`. -/
theorem validate_mapping (fs : List (List Char × JVal)) (ps : List Char) (sb : Bool)
    (hp : dictGet fs (("prompt").data) (.jstr []) = .jstr ps)
    (hs : dictGet fs (("stream").data) (.jbool false) = .jbool sb) :
    validate (some (.jobj fs)) =
      (if fs.isEmpty then ValidateResult.error .MissingBody
       else if pyStrip ps = [] then .error .EmptyPrompt
       else if (pyStrip ps).length > 5000 then .error .PromptTooLong
       else if sb = false then .error .StreamingRequired
       else .ok (pyStrip ps)) ∧
    validate none = .error .MissingBody := by
  refine ⟨?_, rfl⟩
  cases fs with
  | nil => simp [validate, truthy]
  | cons kv rest =>
    have hnotf : ¬ truthy (.jobj (kv :: rest)) = false := by simp [truthy]
    simp only [validate]
    rw [if_neg hnotf, hp, hs]
    simp only [List.isEmpty_cons, Bool.false_eq_true, if_false, truthy]

/-- Claim C5's amended theorem at a well-formed request body. -/
theorem validate_mapping_witness :
    validate (some (.jobj [((("prompt").data : List Char), JVal.jstr ("hi").data),
        ((("stream").data : List Char), JVal.jbool true)])) = .ok (("hi").data) ∧
    validate none = .error .MissingBody := by
  have h := validate_mapping
    [((("prompt").data : List Char), JVal.jstr ("hi").data),
      ((("stream").data : List Char), JVal.jbool true)]
    (("hi").data) true rfl rfl
  exact ⟨h.1.trans (by decide), h.2⟩

/-- Claim C6: every request that fails validation gets HTTP status 400,
content type `text/event-stream`, and a body of exactly one SSE frame
`data: {"error": <message>, "code": 400}\n\n`; that frame is never a
`ContentDelta` frame, and no delta frame surrounds it. -/
theorem validation_error_single_frame (body : Option JVal)
    (fault : Nat → Option (List Char)) (e : ValidationError)
    (h : validate body = .error e) :
    stream_endpoint body fault = ⟨400, sseType, [error400Frame e]⟩ ∧
    ∀ c, error400Frame e ≠ deltaFrame c :=
  ⟨stream_endpoint_of_error body fault e h, error400Frame_ne_deltaFrame e⟩

/-- Claim C6's theorem at the request with no JSON body. -/
theorem validation_error_single_frame_witness :
    stream_endpoint none (fun _ => none) = ⟨400, sseType, [error400Frame .MissingBody]⟩ ∧
    ∀ c, error400Frame .MissingBody ≠ deltaFrame c :=
  validation_error_single_frame none (fun _ => none) .MissingBody rfl

/-- Claim C7: for a valid request the emitted frame sequence is a prefix of
the delta frames, in chunk order, followed by exactly one terminal frame —
the `[DONE]` sentinel when no fault occurs (and then all chunks are
streamed), or a single `{error, code: 500}` frame if a fault strikes during
emission; a delta frame is never a terminal frame and the two terminals are
distinct, so there is exactly one terminal and nothing follows it. -/
theorem stream_termination (body : Option JVal) (fault : Nat → Option (List Char))
    (prompt : List Char) (h : validate body = .ok prompt) :
    ((∃ k msg, k ≤ (responseChunks prompt).length ∧
        (stream_endpoint body fault).frames =
          ((responseChunks prompt).take k).map deltaFrame ++ [error500Frame msg]) ∨
      (stream_endpoint body fault).frames =
        (responseChunks prompt).map deltaFrame ++ [doneFrame]) ∧
    ((∀ i, fault i = none) →
      (stream_endpoint body fault).frames =
        (responseChunks prompt).map deltaFrame ++ [doneFrame]) ∧
    (∀ c, deltaFrame c ≠ doneFrame) ∧
    (∀ c msg, deltaFrame c ≠ error500Frame msg) ∧
    (∀ msg, doneFrame ≠ error500Frame msg) := by
  have hne : ∀ c ∈ responseChunks prompt, pyStrip c ≠ [] := by
    intro c hc
    obtain ⟨h1, h2⟩ := chunk_text_props (generate_streaming_content prompt) 150 c hc
    rw [h2]
    exact h1
  rw [stream_endpoint_of_ok body fault prompt h]
  refine ⟨?_, ?_, deltaFrame_ne_doneFrame, deltaFrame_ne_error500Frame,
    doneFrame_ne_error500Frame⟩
  · exact generate_shape fault (responseChunks prompt) 0 hne
  · intro hf
    have hfun : fault = fun _ => none := funext hf
    rw [hfun]
    exact generate_nofault (responseChunks prompt) 0 hne

/-- Claim C7's theorem at a valid request with a fault-free emission. -/
theorem stream_termination_witness :
    ((∃ k msg, k ≤ (responseChunks (("hi").data)).length ∧
        (stream_endpoint
            (some (.jobj [((("prompt").data : List Char), JVal.jstr ("hi").data),
              ((("stream").data : List Char), JVal.jbool true)])) (fun _ => none)).frames =
          ((responseChunks (("hi").data)).take k).map deltaFrame ++ [error500Frame msg]) ∨
      (stream_endpoint
          (some (.jobj [((("prompt").data : List Char), JVal.jstr ("hi").data),
            ((("stream").data : List Char), JVal.jbool true)])) (fun _ => none)).frames =
        (responseChunks (("hi").data)).map deltaFrame ++ [doneFrame]) ∧
    ((∀ i, (fun (_ : Nat) => (none : Option (List Char))) i = none) →
      (stream_endpoint
          (some (.jobj [((("prompt").data : List Char), JVal.jstr ("hi").data),
            ((("stream").data : List Char), JVal.jbool true)])) (fun _ => none)).frames =
        (responseChunks (("hi").data)).map deltaFrame ++ [doneFrame]) ∧
    (∀ c, deltaFrame c ≠ doneFrame) ∧
    (∀ c msg, deltaFrame c ≠ error500Frame msg) ∧
    (∀ msg, doneFrame ≠ error500Frame msg) :=
  stream_termination
    (some (.jobj [((("prompt").data : List Char), JVal.jstr ("hi").data),
      ((("stream").data : List Char), JVal.jbool true)]))
    (fun _ => none) (("hi").data) rfl

/-- Claim C8: for a valid, fault-free request the frame list is exactly the
delta frames of the chunks, in order, followed by the sentinel — where
`deltaFrame c` is by definition
`data: {"choices": [{"delta": {"content": <c plus one trailing space>}}]}\n\n`
— and concatenating the content fields (each chunk plus its trailing space)
reproduces the synthesized content with whitespace normalized to single
spaces, plus one trailing space. -/
theorem delta_frame_shape (body : Option JVal) (prompt : List Char)
    (h : validate body = .ok prompt) :
    (stream_endpoint body (fun _ => none)).frames =
      (responseChunks prompt).map deltaFrame ++ [doneFrame] ∧
    ((responseChunks prompt).map (fun c => c ++ [' '])).flatten =
      joinSp (pySplit (generate_streaming_content prompt)) ++ [' '] := by
  have hne : ∀ c ∈ responseChunks prompt, pyStrip c ≠ [] := by
    intro c hc
    obtain ⟨h1, h2⟩ := chunk_text_props (generate_streaming_content prompt) 150 c hc
    rw [h2]
    exact h1
  constructor
  · rw [stream_endpoint_of_ok body (fun _ => none) prompt h]
    exact generate_nofault (responseChunks prompt) 0 hne
  · rw [flatten_map_space (responseChunks prompt)
      (chunk_text_ne_nil (generate_streaming_content prompt) 150
        (content_split_ne_nil prompt))]
    unfold responseChunks
    rw [chunk_text_join]

/-- Claim C8's theorem at a valid request. -/
theorem delta_frame_shape_witness :
    (stream_endpoint
        (some (.jobj [((("prompt").data : List Char), JVal.jstr ("hey").data),
          ((("stream").data : List Char), JVal.jbool true)])) (fun _ => none)).frames =
      (responseChunks (("hey").data)).map deltaFrame ++ [doneFrame] ∧
    ((responseChunks (("hey").data)).map (fun c => c ++ [' '])).flatten =
      joinSp (pySplit (generate_streaming_content (("hey").data))) ++ [' '] :=
  delta_frame_shape
    (some (.jobj [((("prompt").data : List Char), JVal.jstr ("hey").data),
      ((("stream").data : List Char), JVal.jbool true)]))
    (("hey").data) rfl

/-- Claim C9: every chunk `chunk_text` returns is non-empty and free of
leading and trailing whitespace (stripping it is the identity), so the
emitter's `if chunk.strip()` guard never skips a chunk: the fault-free frame
list is one delta frame per chunk plus the sentinel, one more frame than
there are chunks. -/
theorem chunks_nonblank_all_emitted (text : List Char) (N : Nat) (h : 1 ≤ N) :
    (∀ c ∈ chunk_text text N, c ≠ [] ∧ pyStrip c = c) ∧
    generate (fun _ => none) (chunk_text text N) 0 =
      (chunk_text text N).map deltaFrame ++ [doneFrame] ∧
    (generate (fun _ => none) (chunk_text text N) 0).length =
      (chunk_text text N).length + 1 := by
  have hprops := chunk_text_props text N
  have hne : ∀ c ∈ chunk_text text N, pyStrip c ≠ [] := by
    intro c hc
    obtain ⟨h1, h2⟩ := hprops c hc
    rw [h2]
    exact h1
  have hgen := generate_nofault (chunk_text text N) 0 hne
  refine ⟨hprops, hgen, ?_⟩
  rw [hgen]
  simp

/-- Claim C9's theorem at a concrete two-word text. -/
theorem chunks_nonblank_all_emitted_witness :
    (∀ c ∈ chunk_text (("hi there").data) 5, c ≠ [] ∧ pyStrip c = c) ∧
    generate (fun _ => none) (chunk_text (("hi there").data) 5) 0 =
      (chunk_text (("hi there").data) 5).map deltaFrame ++ [doneFrame] ∧
    (generate (fun _ => none) (chunk_text (("hi there").data) 5) 0).length =
      (chunk_text (("hi there").data) 5).length + 1 :=
  chunks_nonblank_all_emitted (("hi there").data) 5 (by decide)

/-- Claim C10: a body whose prompt field is present but not a string makes
`data.get('prompt', '').strip()` raise `AttributeError`; the outer handler
catches it and answers HTTP 500 with the single frame
`data: {"error": "Server error: <message>", "code": 500}\n\n` — no 400
validation frame and no delta frame is ever produced. -/
theorem nonstring_prompt_server_error (fs : List (List Char × JVal)) (v : JVal)
    (fault : Nat → Option (List Char))
    (hv : dictGet fs (("prompt").data) (.jstr []) = v)
    (hns : ∀ s, v ≠ .jstr s) :
    stream_endpoint (some (.jobj fs)) fault =
      ⟨500, sseType, [error500Frame (("Server error: ").data ++ stripErrMsg v)]⟩ ∧
    ∀ c, error500Frame (("Server error: ").data ++ stripErrMsg v) ≠ deltaFrame c := by
  have hfs : fs ≠ [] := by
    intro hfs0
    subst hfs0
    have hv0 : v = .jstr [] := by rw [← hv]; rfl
    exact hns [] hv0
  have ht : truthy (.jobj fs) = true := by
    cases fs with
    | nil => exact absurd rfl hfs
    | cons kv rest => rfl
  have hnotf : ¬ truthy (.jobj fs) = false := by rw [ht]; simp
  have hval : validate (some (.jobj fs)) = .raise (stripErrMsg v) := by
    cases v with
    | jstr s => exact absurd rfl (hns s)
    | jnum n => simp only [validate]; rw [if_neg hnotf, hv]
    | jbool b => simp only [validate]; rw [if_neg hnotf, hv]
    | jnull => simp only [validate]; rw [if_neg hnotf, hv]
    | jarr xs => simp only [validate]; rw [if_neg hnotf, hv]
    | jobj fs2 => simp only [validate]; rw [if_neg hnotf, hv]
  refine ⟨?_, error500Frame_ne_deltaFrame _⟩
  rw [stream_endpoint_of_raise (some (.jobj fs)) fault (stripErrMsg v) hval]
  rfl

/-- Claim C10's theorem at a body whose prompt is the number 5. -/
theorem nonstring_prompt_server_error_witness :
    stream_endpoint
        (some (.jobj [((("prompt").data : List Char), JVal.jnum 5),
          ((("stream").data : List Char), JVal.jbool true)])) (fun _ => none) =
      ⟨500, sseType,
        [error500Frame (("Server error: ").data ++ stripErrMsg (JVal.jnum 5))]⟩ ∧
    ∀ c, error500Frame (("Server error: ").data ++ stripErrMsg (JVal.jnum 5)) ≠ deltaFrame c :=
  nonstring_prompt_server_error
    [((("prompt").data : List Char), JVal.jnum 5),
      ((("stream").data : List Char), JVal.jbool true)]
    (JVal.jnum 5) (fun _ => none) rfl (fun s h => by cases h)

end StreamingApi
